import Mathlib

/-!
Verification development for the `integration_linear` Home Assistant custom
component (a Linear issue-tracker to-do list integration).

The development shallowly embeds the Python source files
`custom_components/integration_linear/{api,todo,oauth,const}.py` and
`custom_components/integration_blueprint/coordinator.py`:

- Python dicts used as string-keyed maps become insertion-ordered association
  lists (`dictGet` / `dictInsert` mirror `d.get(k)` / `d[k] = v`).
- `datetime.date` / `datetime.datetime` values become the `Date` / `DateTime`
  structures; `datetime.fromisoformat` is embedded by `fromisoformatChars`
  for the ISO 8601 shapes the integration handles.
- The aiohttp session is abstracted as a sequence of request outcomes, and
  the GraphQL server behind `async_get_issues` as a list of issue records
  filtered exactly as the query built by the client filters them
  (team id equality, state id membership, optional `updatedAt >= cutoff`).
- Timestamps are integers (seconds); `timedelta(days=7)` is `7 * 86400`.
- Exceptions become `Except` / `Option` error results; calls the entity
  layer makes against the API client are recorded as explicit request
  traces so that statements about which requests are sent can be proved.
-/

namespace IntegrationLinear

/-! ## Python-style dictionaries (insertion-ordered association lists) -/

/-- Embedding of `d.get(key)` on a Python dict. -/
def dictGet {α : Type} : List (String × α) → String → Option α
  | [], _ => none
  | (k, v) :: rest, key => if k = key then some v else dictGet rest key

/-- Embedding of `d[key] = v` on a Python dict: replace in place, else append. -/
def dictInsert {α : Type} : List (String × α) → String → α → List (String × α)
  | [], key, v => [(key, v)]
  | (k, w) :: rest, key, v =>
      if k = key then (key, v) :: rest else (k, w) :: dictInsert rest key v

/-! ## String helpers (Python `in` on strings, truthiness) -/

/-- Boolean test that `pat` is a prefix of the character list. -/
def listStartsWith : List Char → List Char → Bool
  | _, [] => true
  | [], _ :: _ => false
  | a :: as, b :: bs => a = b && listStartsWith as bs

/-- Boolean test that `pat` occurs as a contiguous substring. -/
def listContainsSub (pat : List Char) : List Char → Bool
  | [] => listStartsWith [] pat
  | c :: rest => listStartsWith (c :: rest) pat || listContainsSub pat rest

/-- Embedding of Python `pat in s` on strings. -/
def strContains (s pat : String) : Bool := listContainsSub pat.data s.data

/-- Truthiness of an optional string: Python `if not x` is false exactly when
the value is present and non-empty. -/
def truthyStr : Option String → Bool
  | none => false
  | some s => s != ""

/-! ## Dates and datetimes (`datetime.date`, `datetime.datetime`) -/

def isLeapYear (y : Nat) : Bool := (y % 4 == 0 && y % 100 != 0) || y % 400 == 0

def daysInMonth (y m : Nat) : Nat :=
  if m = 2 then (if isLeapYear y then 29 else 28)
  else if m = 4 ∨ m = 6 ∨ m = 9 ∨ m = 11 then 30
  else 31

structure Date where
  year : Nat
  month : Nat
  day : Nat
deriving DecidableEq, Repr

/-- Range invariant enforced by the Python `datetime.date` constructor. -/
def Date.Valid (d : Date) : Prop :=
  1 ≤ d.year ∧ d.year ≤ 9999 ∧ 1 ≤ d.month ∧ d.month ≤ 12 ∧
    1 ≤ d.day ∧ d.day ≤ daysInMonth d.year d.month

instance (d : Date) : Decidable d.Valid :=
  decidable_of_iff
    (1 ≤ d.year ∧ d.year ≤ 9999 ∧ 1 ≤ d.month ∧ d.month ≤ 12 ∧
      1 ≤ d.day ∧ d.day ≤ daysInMonth d.year d.month) Iff.rfl

structure DateTime where
  date : Date
  hour : Nat
  minute : Nat
  second : Nat
deriving DecidableEq, Repr

def digitChar (n : Nat) : Char := Char.ofNat (48 + n)

def digitVal (c : Char) : Option Nat :=
  if 48 ≤ c.toNat ∧ c.toNat ≤ 57 then some (c.toNat - 48) else none

def pad2Chars (n : Nat) : List Char := [digitChar (n / 10 % 10), digitChar (n % 10)]

def pad4Chars (n : Nat) : List Char :=
  [digitChar (n / 1000 % 10), digitChar (n / 100 % 10),
   digitChar (n / 10 % 10), digitChar (n % 10)]

/-- Embedding of `date.isoformat()`: zero-padded `YYYY-MM-DD` (Python dates
always have `year <= 9999`, which `Date.Valid` captures). -/
def Date.isoformatChars (d : Date) : List Char :=
  pad4Chars d.year ++ '-' :: (pad2Chars d.month ++ '-' :: pad2Chars d.day)

def Date.isoformat (d : Date) : String := String.mk d.isoformatChars

def parse2 (a b : Char) : Option Nat :=
  match digitVal a, digitVal b with
  | some x, some y => some (x * 10 + y)
  | _, _ => none

def parse4 (a b c d : Char) : Option Nat :=
  match digitVal a, digitVal b, digitVal c, digitVal d with
  | some w, some x, some y, some z => some (w * 1000 + x * 100 + y * 10 + z)
  | _, _, _, _ => none

/-- Parse the ten-character date portion `YYYY-MM-DD`, validating ranges the
way the `datetime` constructor does (out of range raises `ValueError`). -/
def parseDate10 : List Char → Option Date
  | [y1, y2, y3, y4, s1, m1, m2, s2, d1, d2] =>
      if s1 = '-' ∧ s2 = '-' then
        match parse4 y1 y2 y3 y4, parse2 m1 m2, parse2 d1 d2 with
        | some y, some m, some d =>
            if (Date.mk y m d).Valid then some ⟨y, m, d⟩ else none
        | _, _, _ => none
      else none
  | _ => none

/-- Consume leading decimal digits, returning how many and the rest. -/
def takeDigits : List Char → Nat × List Char
  | [] => (0, [])
  | c :: rest =>
      if (digitVal c).isSome then
        let (n, r) := takeDigits rest
        (n + 1, r)
      else (0, c :: rest)

/-- Fractional-second digits after the decimal point (one to six digits). -/
def parseFrac (cs : List Char) : Option (List Char) :=
  let (n, r) := takeDigits cs
  if 1 ≤ n ∧ n ≤ 6 then some r else none

/-- UTC-offset suffix `±HH:MM` (or nothing); `Z` has already been replaced by
`+00:00` before parsing, as in `_parse_due_date`. -/
def parseOffset : List Char → Bool
  | [] => true
  | [sign, h1, h2, c, m1, m2] =>
      (sign = '+' || sign = '-') && c = ':' &&
        (match parse2 h1 h2, parse2 m1 m2 with
         | some hh, some mm => hh < 24 && mm < 60
         | _, _ => false)
  | _ => false

def parseSecFrac (d : Date) (hh mm : Nat) : List Char → Option DateTime
  | [] => some ⟨d, hh, mm, 0⟩
  | ':' :: s1 :: s2 :: rest =>
      match parse2 s1 s2 with
      | some ss =>
          if 60 ≤ ss then none
          else
            match rest with
            | '.' :: fracRest =>
                match parseFrac fracRest with
                | some r => if parseOffset r then some ⟨d, hh, mm, ss⟩ else none
                | none => none
            | other => if parseOffset other then some ⟨d, hh, mm, ss⟩ else none
      | none => none
  | other => if parseOffset other then some ⟨d, hh, mm, 0⟩ else none

def parseTime (d : Date) : List Char → Option DateTime
  | h1 :: h2 :: rest =>
      match parse2 h1 h2 with
      | some hh =>
          if 24 ≤ hh then none
          else
            match rest with
            | [] => some ⟨d, hh, 0, 0⟩
            | ':' :: m1 :: m2 :: rest2 =>
                match parse2 m1 m2 with
                | some mm => if 60 ≤ mm then none else parseSecFrac d hh mm rest2
                | none => none
            | other => if parseOffset other then some ⟨d, hh, 0, 0⟩ else none
      | none => none
  | _ => none

/-- Embedding of `datetime.fromisoformat` for the forms the integration
meets: a `YYYY-MM-DD` date, optionally followed by a one-character separator
and a time `HH[:MM[:SS[.ffffff]]]` with an optional `±HH:MM` offset.
Anything else is a parse failure (`ValueError` in Python). -/
def fromisoformatChars : List Char → Option DateTime
  | y1 :: y2 :: y3 :: y4 :: s1 :: m1 :: m2 :: s2 :: d1 :: d2 :: rest =>
      match parseDate10 [y1, y2, y3, y4, s1, m1, m2, s2, d1, d2] with
      | none => none
      | some d =>
          match rest with
          | [] => some ⟨d, 0, 0, 0⟩
          | _sep :: timeRest => parseTime d timeRest
  | _ => none

/-- Embedding of `due_date_str.replace("Z", "+00:00")`: the pattern is a
single character, so the replacement is a character-by-character expansion. -/
def replaceZ : List Char → List Char
  | [] => []
  | c :: rest =>
      if c = 'Z' then '+' :: '0' :: '0' :: ':' :: '0' :: '0' :: replaceZ rest
      else c :: replaceZ rest

/-- Embedding of `LinearTodoListEntity._parse_due_date`
(`todo.py`, lines 122-142): empty or missing input gives `None`, otherwise
the string is normalised, parsed as an ISO 8601 datetime and truncated to
its date; a parse failure is caught and gives `None`. -/
def parse_due_date (due_date_str : Option String) : Option Date :=
  match due_date_str with
  | none => none
  | some s =>
      if s.data.isEmpty then none
      else
        match fromisoformatChars (replaceZ s.data) with
        | some parsed => some parsed.date
        | none => none

/-- A Home Assistant due value is a date or a datetime (in Python,
`datetime` is a subclass of `date`; the `isinstance(due, datetime)` test in
the source runs first, so the two cases are disjoint here). -/
inductive DueValue
  | onDate (d : Date)
  | onDateTime (dt : DateTime)
deriving DecidableEq, Repr

/-- Embedding of `LinearTodoListEntity._format_due_date`
(`todo.py`, lines 144-163): `None` gives `None`, a datetime is truncated to
its date, and a date is rendered as `YYYY-MM-DD`. -/
def format_due_date : Option DueValue → Option String
  | none => none
  | some (.onDateTime dt) => some dt.date.isoformat
  | some (.onDate d) => some d.isoformat

/-! ## API client error model (`api.py`, lines 19-54)

`IntegrationBlueprintApiClientAuthenticationError` and
`IntegrationBlueprintApiClientCommunicationError` are subclasses of
`IntegrationBlueprintApiClientError`; an `except` clause on the base class
therefore catches all three.  `general` covers the base class, including the
GraphQL errors raised by `_raise_graphql_error`. -/
inductive ApiError
  | authentication
  | communication
  | general (messages : List String)
deriving DecidableEq, Repr

/-- A Linear issue record as returned by the `GetIssues` query
(`api.py`, lines 196-209): id, title, description, dueDate, state id and
update timestamp (seconds), plus the team it belongs to. -/
structure Issue where
  id : String
  teamId : String
  stateId : String
  title : Option String
  description : Option String
  dueDate : Option String
  updatedAt : Int
deriving DecidableEq, Repr

/-- Server-side semantics of `IntegrationBlueprintApiClient.async_get_issues`
(`api.py`, lines 175-247): the query it builds filters the remote issue
store by team id equality, state id membership, and, exactly when
`updated_since` is passed, by `updatedAt >= updated_since`. -/
def async_get_issues (server : List Issue) (team_id : String)
    (state_ids : List String) (updated_since : Option Int) : List Issue :=
  server.filter fun i =>
    i.teamId == team_id && state_ids.contains i.stateId &&
      match updated_since with
      | none => true
      | some cutoff => decide (cutoff ≤ i.updatedAt)

/-! ## Configuration data model (`const.py`, `config_flow.py`)

`entry.data[CONF_TEAM_STATES]` maps a team id to a dict with keys
`todo_states` (list of state ids), `completed_state` and `removed_state`
(single state ids). -/

structure TeamConfig where
  todo_states : List String
  completed_state : Option String
  removed_state : Option String
deriving DecidableEq, Repr

instance : Inhabited TeamConfig := ⟨⟨[], none, none⟩⟩

/-- One team's cached snapshot: the `{"todo": [...], "completed": [...]}`
dict built by the coordinator. -/
structure TeamData where
  todo : List Issue
  completed : List Issue
deriving DecidableEq, Repr

/-- One read request issued to `client.async_get_issues`, with the exact
arguments of the call. -/
structure FetchRequest where
  team_id : String
  state_ids : List String
  updated_since : Option Int
deriving DecidableEq, Repr

/-- Behaviour of the API client during one refresh: each `async_get_issues`
call either returns issues or raises an `ApiError`. -/
abbrev Fetch := String → List String → Option Int → Except ApiError (List Issue)

/-- Constant from `integration_linear/const.py`, line 14. -/
def COMPLETED_LOOKBACK_DAYS : Nat := 7

def secondsPerDay : Nat := 86400

/-- The cutoff computed by the coordinator:
`datetime.now(timezone.utc) - timedelta(days=COMPLETED_LOOKBACK_DAYS)`. -/
def completedCutoff (now : Int) : Int :=
  now - (COMPLETED_LOOKBACK_DAYS * secondsPerDay : Nat)

/-- Inner `try/except IntegrationBlueprintApiClientError` around each bucket
fetch (`coordinator.py`, lines 52-63 and 67-79): an error of any API-client
class, the authentication subclass included, is logged and the bucket keeps
its default empty list. -/
def bucketResult (r : Except ApiError (List Issue)) : List Issue :=
  match r with
  | .ok issues => issues
  | .error _ => []

/-- The `for team_id in teams` loop of
`BlueprintDataUpdateCoordinator._async_update_data`
(`coordinator.py`, lines 40-81), also recording every `async_get_issues`
request it issues. -/
def updateLoop (fetch : Fetch) (team_states : List (String × TeamConfig))
    (updated_since : Int) :
    List String → List (String × TeamData) →
      List (String × TeamData) × List FetchRequest
  | [], result => (result, [])
  | team_id :: rest, result =>
      let team_config := (dictGet team_states team_id).getD default
      let todo_states := team_config.todo_states
      let completed_state := team_config.completed_state
      let todoBucket :=
        if !todo_states.isEmpty then
          bucketResult (fetch team_id todo_states none)
        else []
      let todoReqs :=
        if !todo_states.isEmpty then [FetchRequest.mk team_id todo_states none]
        else []
      let completedBucket :=
        if truthyStr completed_state then
          bucketResult (fetch team_id [completed_state.getD ""] (some updated_since))
        else []
      let completedReqs :=
        if truthyStr completed_state then
          [FetchRequest.mk team_id [completed_state.getD ""] (some updated_since)]
        else []
      let recres :=
        updateLoop fetch team_states updated_since rest
          (dictInsert result team_id ⟨todoBucket, completedBucket⟩)
      (recres.1, todoReqs ++ (completedReqs ++ recres.2))

/-- The two failure states the coordinator can signal to Home Assistant:
`ConfigEntryAuthFailed` (triggers re-authentication) and `UpdateFailed`
(a visible but recoverable failure). -/
inductive CoordError
  | configEntryAuthFailed
  | updateFailed
deriving DecidableEq, Repr

/-- Embedding of `BlueprintDataUpdateCoordinator._async_update_data`
(`coordinator.py`, lines 27-87).  `prevData` is the coordinator's previous
`self.data`, which the method can see but never reads.  The body's bucket
fetches absorb every `IntegrationBlueprintApiClientError` (see
`bucketResult`), so the body always produces a result dict; the outer
`except` clauses translating an escaping authentication error into
`ConfigEntryAuthFailed` and any other API-client error into `UpdateFailed`
are kept in the embedding as the match arms below. -/
def async_update_data (_prevData : Option (List (String × TeamData)))
    (fetch : Fetch) (teams : List String)
    (team_states : List (String × TeamConfig)) (now : Int) :
    Except CoordError (List (String × TeamData) × List FetchRequest) :=
  match (Except.ok (updateLoop fetch team_states (completedCutoff now) teams []) :
      Except ApiError (List (String × TeamData) × List FetchRequest)) with
  | .ok result => .ok result
  | .error .authentication => .error .configEntryAuthFailed
  | .error _ => .error .updateFailed

/-! ## Todo entity (`todo.py`) -/

/-- The host's `TodoItemStatus` values; `other` stands for any value that is
neither `NEEDS_ACTION` nor `COMPLETED` (the code logs a warning for such a
status and performs no state change). -/
inductive StatusVal
  | needsAction
  | completed
  | other
deriving DecidableEq, Repr

/-- A Home Assistant `TodoItem`. -/
structure TodoItem where
  uid : String
  summary : Option String
  status : Option StatusVal
  description : Option String
  due : Option DueValue
deriving DecidableEq, Repr

/-- Embedding of the `LinearTodoListEntity.todo_items` property
(`todo.py`, lines 86-120).  `data` is `self.coordinator.data`: `none` before
the first successful refresh; a falsy (empty) dict also yields the empty
list.  Todo-bucket issues become needs-action items, completed-bucket issues
become completed items, each carrying the issue id as uid, the title as
summary, the description, and the parsed due date. -/
def todo_items (data : Option (List (String × TeamData))) (team_id : String) :
    List TodoItem :=
  match data with
  | none => []
  | some cache =>
      if cache.isEmpty then []
      else
        let team_data := (dictGet cache team_id).getD ⟨[], []⟩
        (team_data.todo.map fun issue =>
          TodoItem.mk issue.id (some (issue.title.getD "")) (some .needsAction)
            issue.description ((parse_due_date issue.dueDate).map .onDate)) ++
        (team_data.completed.map fun issue =>
          TodoItem.mk issue.id (some (issue.title.getD "")) (some .completed)
            issue.description ((parse_due_date issue.dueDate).map .onDate))

/-- The observations `async_update_todo_item` makes of its `update_fields`
dict: `update_fields.get("status")`, `"description" in update_fields`,
`"due" in update_fields`. -/
structure UpdateFields where
  status : Option StatusVal
  hasDescription : Bool
  hasDue : Bool
deriving DecidableEq, Repr

/-- One call to `client.async_update_issue` with its arguments. -/
structure IssueUpdateCall where
  issue_id : String
  state_id : Option String
  description : Option String
  due_date : Option String
deriving DecidableEq, Repr

/-- Embedding of `IntegrationBlueprintApiClient.async_update_issue`
(`api.py`, lines 249-293 for the argument handling): it raises `ValueError`
when none of `state_id`, `description`, `due_date` is provided, and
otherwise issues an update request carrying exactly the provided fields. -/
def async_update_issue (issue_id : String)
    (state_id description due_date : Option String) :
    Except String IssueUpdateCall :=
  if state_id = none ∧ description = none ∧ due_date = none then
    .error "At least one of state_id, description, or due_date must be provided"
  else .ok ⟨issue_id, state_id, description, due_date⟩

/-- The status resolution of `async_update_todo_item`
(`todo.py`, lines 211-218): `update_fields.get("status")`, falling back to
`item.status` when that is `None`. -/
def resolvedStatus (item : TodoItem) (update_fields : Option UpdateFields) :
    Option StatusVal :=
  match (match update_fields with | some uf => uf.status | none => none) with
  | some s => some s
  | none => item.status

/-- Embedding of `LinearTodoListEntity.async_update_todo_item`
(`todo.py`, lines 190-367).  The result is the list of
`client.async_update_issue` calls actually sent, in order, paired with the
`ValueError` message if the method raises (interpolated team identifiers are
elided from the messages).  When both a field change and a status change are
requested, a single combined call is sent; otherwise the field call (if any)
precedes the status call, and a raise aborts the rest. -/
def async_update_todo_item (team_states : List (String × TeamConfig))
    (team_id : String) (item : TodoItem) (update_fields : Option UpdateFields) :
    List IssueUpdateCall × Option String :=
  let team_config := (dictGet team_states team_id).getD default
  let todo_states := team_config.todo_states
  let completed_state := team_config.completed_state
  let issue_id := item.uid
  let description_updated :=
    match update_fields with
    | none => true
    | some uf => uf.hasDescription
  let due_updated :=
    match update_fields with
    | none => true
    | some uf => uf.hasDue
  let new_status := resolvedStatus item update_fields
  let status_changed :=
    new_status = some .completed ∨ new_status = some .needsAction
  let fields_updated := description_updated || due_updated
  if fields_updated = true ∧ status_changed then
    match new_status with
    | some .completed =>
        if !truthyStr completed_state then
          ([], some "No completed state configured for team")
        else
          match async_update_issue issue_id completed_state
              (if description_updated then item.description else none)
              (if due_updated then format_due_date item.due else none) with
          | .ok call => ([call], none)
          | .error e => ([], some e)
    | some .needsAction =>
        if todo_states.isEmpty then
          ([], some "No todo states configured for team")
        else
          match async_update_issue issue_id (some (todo_states.headD ""))
              (if description_updated then item.description else none)
              (if due_updated then format_due_date item.due else none) with
          | .ok call => ([call], none)
          | .error e => ([], some e)
    | _ => ([], none)
  else
    let fieldStep : List IssueUpdateCall × Option String :=
      if fields_updated then
        match async_update_issue issue_id none
            (if description_updated then item.description else none)
            (if due_updated then format_due_date item.due else none) with
        | .ok call => ([call], none)
        | .error e => ([], some e)
      else ([], none)
    match fieldStep.2 with
    | some e => (fieldStep.1, some e)
    | none =>
        if status_changed then
          match new_status with
          | some .completed =>
              if !truthyStr completed_state then
                (fieldStep.1, some "No completed state configured for team")
              else
                match async_update_issue issue_id completed_state none none with
                | .ok call => (fieldStep.1 ++ [call], none)
                | .error e => (fieldStep.1, some e)
          | some .needsAction =>
              if todo_states.isEmpty then
                (fieldStep.1, some "No todo states configured for team")
              else
                match async_update_issue issue_id
                    (some (todo_states.headD "")) none none with
                | .ok call => (fieldStep.1 ++ [call], none)
                | .error e => (fieldStep.1, some e)
          | _ => (fieldStep.1, none)
        else (fieldStep.1, none)

/-- The `for issue_id in uids` loop of `async_delete_todo_items`
(`todo.py`, lines 381-385). -/
def deleteLoop (removed_state : Option String) :
    List String → List IssueUpdateCall × Option String
  | [] => ([], none)
  | u :: rest =>
      match async_update_issue u removed_state none none with
      | .error e => ([], some e)
      | .ok call =>
          let recres := deleteLoop removed_state rest
          (call :: recres.1, recres.2)

/-- Embedding of `LinearTodoListEntity.async_delete_todo_items`
(`todo.py`, lines 369-388): raises `ValueError` before sending anything when
no removed state is configured, and otherwise moves each uid to the
configured removed state. -/
def async_delete_todo_items (team_states : List (String × TeamConfig))
    (team_id : String) (uids : List String) :
    List IssueUpdateCall × Option String :=
  let team_config := (dictGet team_states team_id).getD default
  let removed_state := team_config.removed_state
  if !truthyStr removed_state then
    ([], some "No removed state configured for this team")
  else deleteLoop removed_state uids

/-! ## GraphQL request wrapper (`api.py`, lines 590-733) -/

/-- One GraphQL error object in a response body, with the fields the wrapper
inspects: `message` and `extensions.statusCode`. -/
structure GraphQLErr where
  message : String
  statusCode : Option Nat
deriving DecidableEq, Repr

/-- An HTTP response: status code and, when the JSON body has an `errors`
key, its list of error objects. -/
structure Response where
  status : Nat
  errors : Option (List GraphQLErr)
deriving DecidableEq, Repr

/-- Outcome of one `self._session.request(...)` call: a response, or a
network-level failure (`TimeoutError`, `aiohttp.ClientError`,
`socket.gaierror`), all of which the outer `except` clauses turn into
`IntegrationBlueprintApiClientCommunicationError`. -/
inductive RequestOutcome
  | success (r : Response)
  | networkFailure
deriving DecidableEq, Repr

/-- First error-scanning loop of `_api_wrapper` (`api.py`, lines 616-625):
walks the GraphQL errors and stops at the first whose
`extensions.statusCode` is 401 or 403 or whose lowercased message contains
"unauthorized". -/
def scanAuthIndicator : List GraphQLErr → Bool
  | [] => false
  | e :: rest =>
      if e.statusCode = some 401 ∨ e.statusCode = some 403 ∨
          strContains e.message.toLower "unauthorized" then true
      else scanAuthIndicator rest

/-- The `is_auth_error` computation of `_api_wrapper`
(`api.py`, lines 612-625). -/
def computeIsAuthError (r : Response) : Bool :=
  if r.status = 401 ∨ r.status = 403 then true
  else if 400 ≤ r.status then
    match r.errors with
    | some errs => scanAuthIndicator errs
    | none => false
  else false

/-- The post-retry classification of a response (`api.py`, lines 653-715):
401/403 raises the authentication error; other HTTP errors raise the
authentication error when a message mentions "unauthorized" and a GraphQL
error otherwise, or a communication error when the body has no `errors` key
(`response.raise_for_status()`); a 2xx body with `errors` raises the
authentication error when a message contains "401", "403" or "unauthorized"
and a GraphQL error otherwise. -/
def classifyResponse (r : Response) : Except ApiError Response :=
  if r.status = 401 ∨ r.status = 403 then .error .authentication
  else if 400 ≤ r.status then
    match r.errors with
    | some errs =>
        let msgs := errs.map GraphQLErr.message
        if r.status = 401 ∨ r.status = 403 ∨
            msgs.any (fun m => strContains m.toLower "unauthorized") then
          .error .authentication
        else .error (.general msgs)
    | none => .error .communication
  else
    match r.errors with
    | some errs =>
        let msgs := errs.map GraphQLErr.message
        if msgs.any (fun m =>
            strContains m "401" || strContains m "403" ||
              strContains m.toLower "unauthorized") then
          .error .authentication
        else .error (.general msgs)
    | none => .ok r

/-- Result of one `_api_wrapper` call: the returned body or raised error,
how many HTTP requests were issued, and the client's token afterwards. -/
structure WrapperOutcome where
  result : Except ApiError Response
  requestCount : Nat
  finalToken : String
deriving Repr

/-- Embedding of `IntegrationBlueprintApiClient._api_wrapper`
(`api.py`, lines 590-733).  `outcomes n` is the outcome of the n-th HTTP
request of this call; `token_refresh_callback` is absent, or present with
the result of awaiting it (a new token, or the exception it raises, which
the wrapper turns into an authentication error).  When the first response
indicates an authentication error and a refresh callback is configured (and
no refresh is already in progress), the wrapper refreshes the token and
retries the request exactly once; the retried response then goes through the
ordinary classification. -/
def api_wrapper (outcomes : Nat → RequestOutcome)
    (token_refresh_callback : Option (Except String String))
    (retry_on_auth_error : Bool) (api_token : String)
    (refresh_in_progress : Bool) : WrapperOutcome :=
  match outcomes 0 with
  | .networkFailure => ⟨.error .communication, 1, api_token⟩
  | .success r1 =>
      if computeIsAuthError r1 && retry_on_auth_error &&
          token_refresh_callback.isSome && !refresh_in_progress then
        match token_refresh_callback with
        | some (.error _) => ⟨.error .authentication, 1, api_token⟩
        | some (.ok new_token) =>
            match outcomes 1 with
            | .networkFailure => ⟨.error .communication, 2, new_token⟩
            | .success r2 => ⟨classifyResponse r2, 2, new_token⟩
        | none => ⟨classifyResponse r1, 1, api_token⟩
      else ⟨classifyResponse r1, 1, api_token⟩

/-! ## OAuth token helper (`oauth.py`) -/

/-- The `entry.data["token"]` dict, with the two fields
`async_get_valid_token` reads. -/
structure OAuthToken where
  access_token : Option String
  expires_at : Option Int
deriving DecidableEq, Repr

/-- Embedding of `async_get_valid_token` (`oauth.py`, lines 20-53).
`entry_token` is `entry.data["token"]` when present; `now` is `time.time()`;
`refresh_result` is the result of `async_refresh_token` (the refreshed token
dict, or the `ValueError` it raises).  Note the guard
`if expires_at and time.time() >= (expires_at - 60)`: a missing or zero
`expires_at` (defaulted by `token.get("expires_at", 0)`) is falsy, so no
refresh happens in that case. -/
def async_get_valid_token (entry_token : Option OAuthToken) (now : Int)
    (refresh_result : Except String OAuthToken) : Except String String :=
  match entry_token with
  | none => .error "Entry does not use OAuth authentication"
  | some token =>
      let access_token := token.access_token.getD ""
      let expires_at := token.expires_at.getD 0
      if expires_at ≠ 0 ∧ expires_at - 60 ≤ now then
        match refresh_result with
        | .error e => .error e
        | .ok token2 => .ok (token2.access_token.getD access_token)
      else .ok (token.access_token.getD access_token)

/-- The per-team snapshot the refresh loop stores for a team id: each bucket
is the fetch result when the corresponding states are configured, and the
empty list otherwise (also when the fetch raised, via `bucketResult`). -/
def teamFetchData (fetch : Fetch) (team_states : List (String × TeamConfig))
    (updated_since : Int) (team_id : String) : TeamData :=
  let team_config := (dictGet team_states team_id).getD default
  ⟨if !team_config.todo_states.isEmpty then
      bucketResult (fetch team_id team_config.todo_states none)
    else [],
   if truthyStr team_config.completed_state then
      bucketResult
        (fetch team_id [team_config.completed_state.getD ""] (some updated_since))
    else []⟩

/-- The read requests the refresh loop issues for one team id. -/
def teamFetchReqs (team_states : List (String × TeamConfig))
    (updated_since : Int) (team_id : String) : List FetchRequest :=
  let team_config := (dictGet team_states team_id).getD default
  (if !team_config.todo_states.isEmpty then
      [FetchRequest.mk team_id team_config.todo_states none]
    else []) ++
  (if truthyStr team_config.completed_state then
      [FetchRequest.mk team_id [team_config.completed_state.getD ""]
        (some updated_since)]
    else [])

/-- Fetch behaviour in which every `async_get_issues` call raises the
authentication error. -/
def authFailFetch : Fetch := fun _ _ _ => .error .authentication

/-- The API client backed by the remote GraphQL store: every
`async_get_issues` call succeeds and returns the issues matching the query's
filter. -/
def serverFetch (server : List Issue) : Fetch :=
  fun team_id state_ids updated_since =>
    .ok (async_get_issues server team_id state_ids updated_since)

/-! ## Helper lemmas about the refresh loop -/

theorem dictGet_dictInsert {α : Type} (d : List (String × α)) (k k2 : String) (v : α) :
    dictGet (dictInsert d k v) k2 = if k = k2 then some v else dictGet d k2 := by
  induction d with
  | nil => simp [dictGet, dictInsert]
  | cons hd tl ih =>
      obtain ⟨k3, w⟩ := hd
      by_cases h3 : k3 = k
      · subst h3
        by_cases h2 : k3 = k2 <;> simp [dictGet, dictInsert, h2]
      · by_cases h2 : k3 = k2
        · subst h2
          have hk : ¬ k = k3 := fun h => h3 h.symm
          simp [dictGet, dictInsert, h3, hk]
        · simp [dictGet, dictInsert, h3, h2, ih]



theorem updateLoop_fst (fetch : Fetch) (team_states : List (String × TeamConfig))
    (updated_since : Int) (l : List String) (acc : List (String × TeamData))
    (t : String) :
    dictGet (updateLoop fetch team_states updated_since l acc).1 t =
      if t ∈ l then some (teamFetchData fetch team_states updated_since t)
      else dictGet acc t := by
  induction l generalizing acc with
  | nil => simp [updateLoop]
  | cons hd rest ih =>
      simp only [updateLoop]
      rw [ih]
      by_cases hmem : t ∈ rest
      · simp [hmem]
      · rw [dictGet_dictInsert]
        by_cases hht : hd = t
        · subst hht
          simp only [hmem, if_false, if_pos rfl, List.mem_cons, true_or, if_true]
          rfl
        · have hth : ¬ t = hd := fun h => hht h.symm
          have hnotin : t ∉ hd :: rest := by simp [List.mem_cons, hth, hmem]
          simp [hmem, hht, hnotin]

theorem updateLoop_snd (fetch : Fetch) (team_states : List (String × TeamConfig))
    (updated_since : Int) (l : List String) (acc : List (String × TeamData)) :
    (updateLoop fetch team_states updated_since l acc).2 =
      (l.map (teamFetchReqs team_states updated_since)).flatten := by
  induction l generalizing acc with
  | nil => simp [updateLoop]
  | cons hd rest ih =>
      simp only [updateLoop]
      rw [ih]
      simp [teamFetchReqs, List.append_assoc]

theorem mem_updateLoop_snd {fetch : Fetch}
    {team_states : List (String × TeamConfig)} {updated_since : Int}
    {l : List String} {acc : List (String × TeamData)} {r : FetchRequest} :
    r ∈ (updateLoop fetch team_states updated_since l acc).2 ↔
      ∃ t ∈ l, r ∈ teamFetchReqs team_states updated_since t := by
  rw [updateLoop_snd]
  simp [List.mem_flatten]

/-- The body of `_async_update_data` never raises an API-client error, since
both bucket fetches absorb them; the outer translation to `CoordError`
therefore always takes the success arm. -/
theorem async_update_data_eq (prev : Option (List (String × TeamData)))
    (fetch : Fetch) (teams : List String)
    (team_states : List (String × TeamConfig)) (now : Int) :
    async_update_data prev fetch teams team_states now =
      .ok (updateLoop fetch team_states (completedCutoff now) teams []) := rfl

/-- Every request a member of the trace belongs to some team of the loop and
carries that team id; its shape is the todo fetch (no date filter, the
team's todo states) or the completed fetch (date filter, the singleton
completed state). -/
theorem trace_shape {fetch : Fetch} {team_states : List (String × TeamConfig)}
    {updated_since : Int} {l : List String} {acc : List (String × TeamData)}
    {r : FetchRequest} (hr : r ∈ (updateLoop fetch team_states updated_since l acc).2) :
    r.team_id ∈ l ∧
      ((r.updated_since = none ∧
          r.state_ids = ((dictGet team_states r.team_id).getD default).todo_states ∧
          ((dictGet team_states r.team_id).getD default).todo_states ≠ []) ∨
       (r.updated_since = some updated_since ∧
          ∃ cs, ((dictGet team_states r.team_id).getD default).completed_state = some cs ∧
            cs ≠ "" ∧ r.state_ids = [cs])) := by
  rw [mem_updateLoop_snd] at hr
  obtain ⟨t, htl, hrt⟩ := hr
  rw [teamFetchReqs, List.mem_append] at hrt
  rcases hrt with h | h
  · rcases hxe : ((dictGet team_states t).getD default).todo_states.isEmpty with _ | _
    · rw [hxe] at h
      simp at h
      subst h
      refine ⟨htl, Or.inl ⟨rfl, rfl, ?_⟩⟩
      intro hnil
      rw [hnil] at hxe
      simp at hxe
    · rw [hxe] at h
      simp at h
  · rcases hcs : ((dictGet team_states t).getD default).completed_state with _ | cs
    · rw [hcs] at h
      simp [truthyStr] at h
    · rw [hcs] at h
      by_cases hne : cs = ""
      · subst hne
        simp [truthyStr] at h
      · simp [truthyStr, hne] at h
        subst h
        exact ⟨htl, Or.inr ⟨rfl, cs, by simp [hcs], hne, by simp [hcs]⟩⟩

/-! ## Claim theorems -/

/-- C2: the claim says an authentication failure raised while fetching a
team's issues propagates as `ConfigEntryAuthFailed` and any other API
failure as `UpdateFailed`.  The code does neither: the per-bucket
`except IntegrationBlueprintApiClientError` clauses catch the
authentication subclass too, so a refresh in which every fetch raises the
authentication error still returns a normal result with empty buckets, and
`_async_update_data` can in fact never raise either `ConfigEntryAuthFailed`
or `UpdateFailed` (second conjunct).  The outer translation clauses of the
source are dead code, contradicting their evident purpose. -/
theorem c2_auth_failure_swallowed :
    async_update_data none authFailFetch ["team1"]
        [("team1", ⟨["s1"], none, none⟩)] 0 =
      .ok ([("team1", ⟨[], []⟩)], [⟨"team1", ["s1"], none⟩]) ∧
    ∀ prev fetch teams team_states now,
      ∃ r, async_update_data prev fetch teams team_states now = .ok r :=
  ⟨rfl, fun _ _ _ _ _ => ⟨_, rfl⟩⟩

/-- C4: the refresh result is built solely from the current cycle's fetches
and is independent of the previous cache (which `_async_update_data` never
reads), and a bucket whose fetch fails in a cycle is the empty list for that
cycle rather than the prior snapshot's issues. -/
theorem c4_cache_wholesale_replacement :
    (∀ prev prev2 fetch teams team_states now,
       async_update_data prev fetch teams team_states now =
         async_update_data prev2 fetch teams team_states now) ∧
    (∀ (fetch : Fetch) (teams : List String) team_states (now : Int)
       (t : String) (e : ApiError) cache trace,
       t ∈ teams →
       fetch t ((dictGet team_states t).getD default).todo_states none = .error e →
       async_update_data none fetch teams team_states now = .ok (cache, trace) →
       ∃ td, dictGet cache t = some td ∧ td.todo = []) := by
  constructor
  · intro prev prev2 fetch teams team_states now
    rfl
  · intro fetch teams team_states now t e cache trace hmem herr hok
    have h1 : updateLoop fetch team_states (completedCutoff now) teams [] =
        (cache, trace) :=
      Except.ok.inj ((async_update_data_eq none fetch teams team_states now).symm.trans hok)
    refine ⟨teamFetchData fetch team_states (completedCutoff now) t, ?_, ?_⟩
    · have hc : cache =
          (updateLoop fetch team_states (completedCutoff now) teams []).1 := by
        rw [h1]
      rw [hc, updateLoop_fst]
      simp [hmem]
    · simp [teamFetchData, herr, bucketResult]

/-- C5: each refresh cycle fans out per team and per bucket.  For every
configured team id the cache holds a snapshot; when todo states are
configured the todo bucket is the result of fetching exactly those state ids
with no date filter and that request appears in the trace; when a completed
state is configured the completed bucket is the result of fetching that
single state id with the lookback date filter and that request appears in
the trace; a team with no todo states (resp. no completed state) gets an
empty bucket and no such fetch is issued for it. -/
theorem c5_per_team_fan_out (fetch : Fetch) (teams : List String)
    (team_states : List (String × TeamConfig)) (now : Int) (t : String)
    (ht : t ∈ teams) :
    ∃ cache trace,
      async_update_data none fetch teams team_states now = .ok (cache, trace) ∧
      ∃ td, dictGet cache t = some td ∧
        (((dictGet team_states t).getD default).todo_states ≠ [] →
           td.todo = bucketResult
             (fetch t ((dictGet team_states t).getD default).todo_states none) ∧
           FetchRequest.mk t ((dictGet team_states t).getD default).todo_states
             none ∈ trace) ∧
        (((dictGet team_states t).getD default).todo_states = [] →
           td.todo = [] ∧
           ∀ r ∈ trace, r.team_id = t → r.updated_since ≠ none) ∧
        (∀ cs, ((dictGet team_states t).getD default).completed_state = some cs →
           cs ≠ "" →
           td.completed = bucketResult (fetch t [cs] (some (completedCutoff now))) ∧
           FetchRequest.mk t [cs] (some (completedCutoff now)) ∈ trace) ∧
        (truthyStr ((dictGet team_states t).getD default).completed_state = false →
           td.completed = [] ∧
           ∀ r ∈ trace, r.team_id = t → r.updated_since = none) := by
  refine ⟨(updateLoop fetch team_states (completedCutoff now) teams []).1,
    (updateLoop fetch team_states (completedCutoff now) teams []).2,
    async_update_data_eq none fetch teams team_states now,
    teamFetchData fetch team_states (completedCutoff now) t, ?_, ?_, ?_, ?_, ?_⟩
  · rw [updateLoop_fst]
    simp [ht]
  · intro hne
    constructor
    · simp [teamFetchData, List.isEmpty_iff, hne]
    · rw [mem_updateLoop_snd]
      refine ⟨t, ht, ?_⟩
      rw [teamFetchReqs, List.mem_append]
      left
      simp [List.isEmpty_iff, hne]
  · intro hnil
    constructor
    · simp [teamFetchData, hnil]
    · intro r hr hteam
      have hshape := trace_shape hr
      rcases hshape.2 with ⟨_, _, hne⟩ | ⟨hus, _⟩
      · rw [hteam, hnil] at hne
        exact absurd rfl hne
      · rw [hus]
        exact fun h => Option.noConfusion h
  · intro cs hcs hcsne
    constructor
    · simp [teamFetchData, hcs, truthyStr, hcsne]
    · rw [mem_updateLoop_snd]
      refine ⟨t, ht, ?_⟩
      rw [teamFetchReqs, List.mem_append]
      right
      simp [hcs, truthyStr, hcsne]
  · intro hfalse
    constructor
    · simp [teamFetchData, hfalse]
    · intro r hr hteam
      have hshape := trace_shape hr
      rcases hshape.2 with ⟨hus, _⟩ | ⟨_, cs, hcs, hcsne, _⟩
      · exact hus
      · rw [hteam] at hcs
        rw [hcs] at hfalse
        simp [truthyStr, hcsne] at hfalse

theorem c4_cache_wholesale_replacement_witness :
    ∃ td, dictGet [("t1", (⟨[], []⟩ : TeamData))] "t1" = some td ∧ td.todo = [] :=
  c4_cache_wholesale_replacement.2
    (fun _ _ _ => .error (.general [])) ["t1"] [("t1", ⟨["s1"], none, none⟩)] 0
    "t1" (.general []) [("t1", ⟨[], []⟩)] [⟨"t1", ["s1"], none⟩]
    (by decide) rfl rfl

theorem c5_per_team_fan_out_witness :
    ("t1" ∈ ["t1"]) ∧
    ∃ cache trace,
      async_update_data none (fun _ _ _ => Except.ok ([] : List Issue)) ["t1"]
          [("t1", ⟨["s1"], some "c1", none⟩)] 0 = .ok (cache, trace) ∧
      ∃ td, dictGet cache "t1" = some td := by
  refine ⟨by decide, ?_⟩
  obtain ⟨cache, trace, hok, td, htd, -⟩ :=
    c5_per_team_fan_out (fun _ _ _ => Except.ok ([] : List Issue)) ["t1"]
      [("t1", ⟨["s1"], some "c1", none⟩)] 0 "t1" (by decide)
  exact ⟨cache, trace, hok, td, htd⟩

/-- C9: completed issues are fetched with an updated-since filter of
`COMPLETED_LOOKBACK_DAYS` (7 days) before now while todo issues are fetched
with no date filter (first conjunct: every request in the trace has one of
those two shapes); consequently an issue not updated within the lookback
window, and whose workflow state is not among any team's todo states, is
absent from every cached bucket and from every presented list. -/
theorem c9_completed_lookback (server : List Issue) (teams : List String)
    (team_states : List (String × TeamConfig)) (now : Int) (i : Issue)
    (hmem : i ∈ server)
    (hstale : i.updatedAt < completedCutoff now)
    (hnottodo : ∀ t2, i.stateId ∉ ((dictGet team_states t2).getD default).todo_states) :
    ∃ cache trace,
      async_update_data none (serverFetch server) teams team_states now =
        .ok (cache, trace) ∧
      (∀ r ∈ trace,
        (r.updated_since = none ∧
          r.state_ids = ((dictGet team_states r.team_id).getD default).todo_states) ∨
        (r.updated_since = some (completedCutoff now) ∧
          ∃ cs, ((dictGet team_states r.team_id).getD default).completed_state =
            some cs ∧ r.state_ids = [cs])) ∧
      (∀ t2 td, dictGet cache t2 = some td → i ∉ td.todo ∧ i ∉ td.completed) ∧
      (∀ t2 item, item ∈ todo_items (some cache) t2 →
        (∀ j ∈ server, j.id = i.id → j = i) → item.uid ≠ i.id) := by
  have hbuckets : ∀ t2 td,
      dictGet (updateLoop (serverFetch server) team_states (completedCutoff now)
        teams []).1 t2 = some td → i ∉ td.todo ∧ i ∉ td.completed := by
    intro t2 td htd
    rw [updateLoop_fst] at htd
    by_cases ht2 : t2 ∈ teams
    · rw [if_pos ht2] at htd
      have htd2 : td = teamFetchData (serverFetch server) team_states
          (completedCutoff now) t2 := (Option.some.inj htd).symm
      subst htd2
      constructor
      · show i ∉ (if _ then _ else _)
        split
        · intro hin
          rw [show bucketResult (serverFetch server t2
              ((dictGet team_states t2).getD default).todo_states none) =
              async_get_issues server t2
                ((dictGet team_states t2).getD default).todo_states none from rfl,
            async_get_issues, List.mem_filter] at hin
          have hconds := hin.2
          simp only [Bool.and_eq_true, decide_eq_true_eq] at hconds
          exact hnottodo t2 (by simpa using hconds.1.2)
        · simp
      · show i ∉ (if _ then _ else _)
        split
        · intro hin
          rw [show bucketResult (serverFetch server t2
              [((dictGet team_states t2).getD default).completed_state.getD ""]
              (some (completedCutoff now))) =
              async_get_issues server t2
                [((dictGet team_states t2).getD default).completed_state.getD ""]
                (some (completedCutoff now)) from rfl,
            async_get_issues, List.mem_filter] at hin
          have hconds := hin.2
          simp only [Bool.and_eq_true, decide_eq_true_eq] at hconds
          exact absurd hconds.2 (not_le.mpr hstale)
        · simp
    · rw [if_neg ht2] at htd
      exact Option.noConfusion htd
  have hsubset : ∀ t2 td, dictGet (updateLoop (serverFetch server) team_states
      (completedCutoff now) teams []).1 t2 = some td →
      ∀ j, j ∈ td.todo ∨ j ∈ td.completed → j ∈ server := by
    intro t2 td htd j hj
    rw [updateLoop_fst] at htd
    by_cases ht2 : t2 ∈ teams
    · rw [if_pos ht2] at htd
      have htd2 : td = teamFetchData (serverFetch server) team_states
          (completedCutoff now) t2 := (Option.some.inj htd).symm
      subst htd2
      rcases hj with hj | hj
      · revert hj
        show j ∈ (if _ then _ else _) → _
        split
        · intro hj
          rw [show bucketResult (serverFetch server t2
              ((dictGet team_states t2).getD default).todo_states none) =
              async_get_issues server t2
                ((dictGet team_states t2).getD default).todo_states none from rfl,
            async_get_issues, List.mem_filter] at hj
          exact hj.1
        · simp
      · revert hj
        show j ∈ (if _ then _ else _) → _
        split
        · intro hj
          rw [show bucketResult (serverFetch server t2
              [((dictGet team_states t2).getD default).completed_state.getD ""]
              (some (completedCutoff now))) =
              async_get_issues server t2
                [((dictGet team_states t2).getD default).completed_state.getD ""]
                (some (completedCutoff now)) from rfl,
            async_get_issues, List.mem_filter] at hj
          exact hj.1
        · simp
    · rw [if_neg ht2] at htd
      exact Option.noConfusion htd
  refine ⟨(updateLoop (serverFetch server) team_states (completedCutoff now)
      teams []).1,
    (updateLoop (serverFetch server) team_states (completedCutoff now) teams []).2,
    async_update_data_eq none (serverFetch server) teams team_states now,
    ?_, hbuckets, ?_⟩
  · intro r hr
    have hshape := (trace_shape hr).2
    rcases hshape with ⟨h1, h2, _⟩ | ⟨h1, cs, h2, _, h4⟩
    · exact Or.inl ⟨h1, h2⟩
    · exact Or.inr ⟨h1, cs, h2, h4⟩
  · intro t2 item hitem huniq
    rw [todo_items] at hitem
    by_cases hempty : (updateLoop (serverFetch server) team_states
        (completedCutoff now) teams []).1.isEmpty
    · rw [if_pos hempty] at hitem
      exact absurd hitem (List.not_mem_nil item)
    · rw [if_neg hempty] at hitem
      rcases hget : dictGet (updateLoop (serverFetch server) team_states
          (completedCutoff now) teams []).1 t2 with _ | td
      · rw [hget] at hitem
        simp [dictGet] at hitem
      · rw [hget] at hitem
        simp only [Option.getD_some, List.mem_append, List.mem_map] at hitem
        intro huid
        have hissue : ∃ issue, (issue ∈ td.todo ∨ issue ∈ td.completed) ∧
            issue.id = i.id := by
          rcases hitem with ⟨issue, hiss, heq⟩ | ⟨issue, hiss, heq⟩
          · exact ⟨issue, Or.inl hiss, by rw [← heq] at huid; exact huid⟩
          · exact ⟨issue, Or.inr hiss, by rw [← heq] at huid; exact huid⟩
        obtain ⟨issue, hiss, hid⟩ := hissue
        have hser : issue ∈ server := hsubset t2 td hget issue hiss
        have : issue = i := huniq issue hser hid
        subst this
        have habs := hbuckets t2 td hget
        rcases hiss with hiss | hiss
        · exact habs.1 hiss
        · exact habs.2 hiss

theorem c9_completed_lookback_witness :
    ∃ cache trace,
      async_update_data none
          (serverFetch [⟨"i1", "t1", "done", none, none, none, 0⟩]) ["t1"]
          [("t1", ⟨["s1"], some "done", none⟩)] 1000000 = .ok (cache, trace) ∧
      ∀ td, dictGet cache "t1" = some td →
        (⟨"i1", "t1", "done", none, none, none, 0⟩ : Issue) ∉ td.completed := by
  have hnt : ∀ t2, ("done" : String) ∉
      ((dictGet [("t1", (⟨["s1"], some "done", none⟩ : TeamConfig))] t2).getD
        default).todo_states := by
    intro t2
    by_cases h : "t1" = t2
    · simp only [dictGet, if_pos h, Option.getD_some]
      decide
    · simp only [dictGet, if_neg h, Option.getD_none]
      decide
  obtain ⟨cache, trace, hok, -, habs, -⟩ :=
    c9_completed_lookback [⟨"i1", "t1", "done", none, none, none, 0⟩] ["t1"]
      [("t1", ⟨["s1"], some "done", none⟩)] 1000000
      ⟨"i1", "t1", "done", none, none, none, 0⟩ (by decide) (by decide) hnt
  exact ⟨cache, trace, hok, fun td htd => (habs "t1" td htd).2⟩

/-- When a removed state is configured, the deletion loop sends one update
per uid, all moving to that state, and never raises. -/
theorem deleteLoop_some (rs : String) (uids : List String) :
    deleteLoop (some rs) uids =
      (uids.map (fun u => ⟨u, some rs, none, none⟩), none) := by
  induction uids with
  | nil => rfl
  | cons u rest ih => simp [deleteLoop, async_update_issue, ih]

/-- C8: disjointness of the configured state buckets is not enforced.  With
a state id that is both a todo state and the completed state of a team, a
refresh still succeeds (indeed a refresh never errors for any
configuration), completing, reopening and deleting items raise no error, and
a recently updated issue in the shared state appears in both cached buckets
and therefore twice in the presented to-do list. -/
theorem c8_overlap_not_enforced (server : List Issue) (teams : List String)
    (team_states : List (String × TeamConfig)) (now : Int) (t s : String)
    (i : Issue)
    (hmem : t ∈ teams)
    (hs : s ∈ ((dictGet team_states t).getD default).todo_states)
    (hcs : ((dictGet team_states t).getD default).completed_state = some s)
    (hsne : s ≠ "")
    (hi : i ∈ server) (hteam : i.teamId = t) (hstate : i.stateId = s)
    (hfresh : completedCutoff now ≤ i.updatedAt) :
    (∀ prev fetch teams2 team_states2 now2,
       ∃ r, async_update_data prev fetch teams2 team_states2 now2 = .ok r) ∧
    (∀ item, (async_update_todo_item team_states t item
        (some ⟨some .completed, false, false⟩)).2 = none) ∧
    (∀ item, (async_update_todo_item team_states t item
        (some ⟨some .needsAction, false, false⟩)).2 = none) ∧
    (∀ uids rs, ((dictGet team_states t).getD default).removed_state = some rs →
       rs ≠ "" → (async_delete_todo_items team_states t uids).2 = none) ∧
    ∃ cache trace,
      async_update_data none (serverFetch server) teams team_states now =
        .ok (cache, trace) ∧
      ∃ td, dictGet cache t = some td ∧ i ∈ td.todo ∧ i ∈ td.completed ∧
        2 ≤ (todo_items (some cache) t).countP (fun item => item.uid == i.id) := by
  have hne : ((dictGet team_states t).getD default).todo_states ≠ [] :=
    List.ne_nil_of_mem hs
  refine ⟨fun _ _ _ _ _ => ⟨_, rfl⟩, ?_, ?_, ?_, ?_⟩
  · intro item
    simp [async_update_todo_item, resolvedStatus, hcs, truthyStr, hsne,
      async_update_issue]
  · intro item
    simp [async_update_todo_item, resolvedStatus, hcs, truthyStr, hsne,
      async_update_issue, List.isEmpty_iff, hne]
  · intro uids rs hrs hrsne
    simp [async_delete_todo_items, hrs, truthyStr, hrsne, deleteLoop_some]
  · have hget : dictGet (updateLoop (serverFetch server) team_states
        (completedCutoff now) teams []).1 t =
        some (teamFetchData (serverFetch server) team_states
          (completedCutoff now) t) := by
      rw [updateLoop_fst]
      simp [hmem]
    have htodo : i ∈ (teamFetchData (serverFetch server) team_states
        (completedCutoff now) t).todo := by
      show i ∈ (if _ then _ else _)
      rw [if_pos (by simp [List.isEmpty_iff, hne])]
      show i ∈ async_get_issues server t
        ((dictGet team_states t).getD default).todo_states none
      rw [async_get_issues, List.mem_filter]
      refine ⟨hi, ?_⟩
      simp only [Bool.and_eq_true, beq_iff_eq]
      exact ⟨⟨hteam, by simpa [hstate] using hs⟩, trivial⟩
    have hcompleted : i ∈ (teamFetchData (serverFetch server) team_states
        (completedCutoff now) t).completed := by
      show i ∈ (if _ then _ else _)
      rw [if_pos (by simp [truthyStr, hcs, hsne])]
      show i ∈ async_get_issues server t
        [((dictGet team_states t).getD default).completed_state.getD ""]
        (some (completedCutoff now))
      rw [async_get_issues, List.mem_filter]
      refine ⟨hi, ?_⟩
      simp only [Bool.and_eq_true, beq_iff_eq, decide_eq_true_eq]
      exact ⟨⟨hteam, by simp [hcs, hstate]⟩, hfresh⟩
    refine ⟨(updateLoop (serverFetch server) team_states (completedCutoff now)
        teams []).1,
      (updateLoop (serverFetch server) team_states (completedCutoff now)
        teams []).2,
      async_update_data_eq none (serverFetch server) teams team_states now,
      teamFetchData (serverFetch server) team_states (completedCutoff now) t,
      hget, htodo, hcompleted, ?_⟩
    have hnonempty : ¬ (updateLoop (serverFetch server) team_states
        (completedCutoff now) teams []).1.isEmpty = true := by
      intro hemp
      rw [List.isEmpty_iff] at hemp
      rw [hemp] at hget
      exact Option.noConfusion hget
    rw [todo_items]
    rw [if_neg hnonempty, hget]
    simp only [Option.getD_some, List.countP_append]
    have h1 : 0 < List.countP (fun item => item.uid == i.id)
        ((teamFetchData (serverFetch server) team_states (completedCutoff now)
          t).todo.map fun issue =>
            TodoItem.mk issue.id (some (issue.title.getD "")) (some .needsAction)
              issue.description ((parse_due_date issue.dueDate).map .onDate)) := by
      rw [List.countP_pos_iff]
      exact ⟨_, List.mem_map_of_mem _ htodo, by simp⟩
    have h2 : 0 < List.countP (fun item => item.uid == i.id)
        ((teamFetchData (serverFetch server) team_states (completedCutoff now)
          t).completed.map fun issue =>
            TodoItem.mk issue.id (some (issue.title.getD "")) (some .completed)
              issue.description ((parse_due_date issue.dueDate).map .onDate)) := by
      rw [List.countP_pos_iff]
      exact ⟨_, List.mem_map_of_mem _ hcompleted, by simp⟩
    omega

theorem c8_overlap_not_enforced_witness :
    ∃ cache trace,
      async_update_data none
          (serverFetch [⟨"i1", "t1", "s", none, none, none, 1000000⟩]) ["t1"]
          [("t1", ⟨["s"], some "s", some "r"⟩)] 1000000 = .ok (cache, trace) ∧
      ∃ td, dictGet cache "t1" = some td ∧
        2 ≤ (todo_items (some cache) "t1").countP
              (fun item => item.uid == "i1") := by
  obtain ⟨-, -, -, -, cache, trace, hok, td, hget, -, -, hcount⟩ :=
    c8_overlap_not_enforced [⟨"i1", "t1", "s", none, none, none, 1000000⟩] ["t1"]
      [("t1", ⟨["s"], some "s", some "r"⟩)] 1000000 "t1" "s"
      ⟨"i1", "t1", "s", none, none, none, 1000000⟩
      (by decide) (by decide) (by decide) (by decide) (by decide) (by decide)
      (by decide) (by decide)
  exact ⟨cache, trace, hok, td, hget, hcount⟩

/-- C6: the presented to-do list maps the external workflow states to the
host's three-state model.  Before any fetch the list is empty (also for a
falsy empty cache); every issue of the team's cached todo bucket appears as
a needs-action item and every issue of the completed bucket as a completed
item, carrying the issue id as uid, the title as summary, the description,
and the parsed due date; and conversely every presented item arises from a
cached issue this way, so an issue in neither bucket (a removed one) is
absent. -/
theorem c6_presented_state_mapping (cache : List (String × TeamData))
    (team_id : String) :
    todo_items none team_id = [] ∧
    todo_items (some []) team_id = [] ∧
    (∀ issue, cache ≠ [] →
       issue ∈ ((dictGet cache team_id).getD ⟨[], []⟩).todo →
       TodoItem.mk issue.id (some (issue.title.getD "")) (some .needsAction)
         issue.description ((parse_due_date issue.dueDate).map .onDate) ∈
         todo_items (some cache) team_id) ∧
    (∀ issue, cache ≠ [] →
       issue ∈ ((dictGet cache team_id).getD ⟨[], []⟩).completed →
       TodoItem.mk issue.id (some (issue.title.getD "")) (some .completed)
         issue.description ((parse_due_date issue.dueDate).map .onDate) ∈
         todo_items (some cache) team_id) ∧
    (∀ item, item ∈ todo_items (some cache) team_id →
       ∃ issue, item.uid = issue.id ∧
         item.summary = some (issue.title.getD "") ∧
         item.description = issue.description ∧
         item.due = (parse_due_date issue.dueDate).map .onDate ∧
         ((issue ∈ ((dictGet cache team_id).getD ⟨[], []⟩).todo ∧
             item.status = some .needsAction) ∨
          (issue ∈ ((dictGet cache team_id).getD ⟨[], []⟩).completed ∧
             item.status = some .completed))) := by
  have hnil : todo_items none team_id = [] := rfl
  have hempty : todo_items (some []) team_id = [] := rfl
  refine ⟨hnil, hempty, ?_, ?_, ?_⟩
  · intro issue hne hmem
    rw [todo_items, if_neg (by simpa [List.isEmpty_iff] using hne)]
    exact List.mem_append_left _ (List.mem_map_of_mem _ hmem)
  · intro issue hne hmem
    rw [todo_items, if_neg (by simpa [List.isEmpty_iff] using hne)]
    exact List.mem_append_right _ (List.mem_map_of_mem _ hmem)
  · intro item hitem
    rw [todo_items] at hitem
    by_cases hne : cache.isEmpty
    · rw [if_pos hne] at hitem
      exact absurd hitem (List.not_mem_nil item)
    · rw [if_neg hne] at hitem
      rcases List.mem_append.mp hitem with h | h
      · obtain ⟨issue, hiss, heq⟩ := List.mem_map.mp h
        exact ⟨issue, by rw [← heq], by rw [← heq], by rw [← heq],
          by rw [← heq], Or.inl ⟨hiss, by rw [← heq]⟩⟩
      · obtain ⟨issue, hiss, heq⟩ := List.mem_map.mp h
        exact ⟨issue, by rw [← heq], by rw [← heq], by rw [← heq],
          by rw [← heq], Or.inr ⟨hiss, by rw [← heq]⟩⟩

theorem c6_presented_state_mapping_witness :
    ([("t1", (⟨[⟨"i1", "t1", "s1", some "T", none, none, 0⟩], []⟩ : TeamData))] ≠
        ([] : List (String × TeamData))) ∧
    TodoItem.mk "i1" (some "T") (some .needsAction) none none ∈
      todo_items
        (some [("t1", ⟨[⟨"i1", "t1", "s1", some "T", none, none, 0⟩], []⟩)])
        "t1" := by
  refine ⟨by decide, ?_⟩
  have h := (c6_presented_state_mapping
    [("t1", ⟨[⟨"i1", "t1", "s1", some "T", none, none, 0⟩], []⟩)] "t1").2.2.1
    ⟨"i1", "t1", "s1", some "T", none, none, 0⟩ (by decide) (by decide)
  simpa using h

/-- C7 counterexample: with a stored token whose `expires_at` is 0 (already
in the past relative to `now = 1000000`) and a refresh that would return a
token with access token "new", the code returns the old access token without
refreshing, because `if expires_at and ...` treats 0 as falsy; the claim
says this situation must refresh and return the new access token. -/
theorem c7_counterexample :
    async_get_valid_token (some ⟨some "old", some 0⟩) 1000000
        (.ok ⟨some "new", some 2000000⟩) = .ok "old" ∧
    ¬ (async_get_valid_token (some ⟨some "old", some 0⟩) 1000000
        (.ok ⟨some "new", some 2000000⟩) = .ok "new") ∧
    ((0 : Int) - 60 ≤ 1000000) := by
  refine ⟨rfl, ?_, by norm_num⟩
  intro h
  have : ("old" : String) = "new" := by
    have h2 : (Except.ok "old" : Except String String) = .ok "new" := h
    exact Except.ok.inj h2
  simp at this

/-- C7 (amended): `async_get_valid_token` raises `ValueError` when the entry
has no OAuth token; it returns the stored access token unchanged when
`expires_at` lies more than 60 seconds in the future, and also when
`expires_at` is absent or zero (falsy); and only when `expires_at` is
non-zero and within 60 seconds of now or already past does it refresh and
return the refreshed token's access token. -/
theorem c7_valid_token_amended (entry_token : Option OAuthToken) (now : Int)
    (refresh_result : Except String OAuthToken) :
    (entry_token = none →
      async_get_valid_token entry_token now refresh_result =
        .error "Entry does not use OAuth authentication") ∧
    (∀ tok, entry_token = some tok →
      ((tok.expires_at.getD 0 = 0 ∨ now < tok.expires_at.getD 0 - 60) →
        async_get_valid_token entry_token now refresh_result =
          .ok (tok.access_token.getD "")) ∧
      (tok.expires_at.getD 0 ≠ 0 → tok.expires_at.getD 0 - 60 ≤ now →
        ∀ tok2 s, refresh_result = .ok tok2 → tok2.access_token = some s →
          async_get_valid_token entry_token now refresh_result = .ok s)) := by
  have hunfold : ∀ (tok : OAuthToken),
      async_get_valid_token (some tok) now refresh_result =
        if tok.expires_at.getD 0 ≠ 0 ∧ tok.expires_at.getD 0 - 60 ≤ now then
          match refresh_result with
          | .error e => .error e
          | .ok token2 => .ok (token2.access_token.getD (tok.access_token.getD ""))
        else .ok (tok.access_token.getD (tok.access_token.getD "")) :=
    fun _ => rfl
  constructor
  · intro h
    rw [h]
    rfl
  · intro tok htok
    subst htok
    constructor
    · intro hcase
      have hnot : ¬ (tok.expires_at.getD 0 ≠ 0 ∧
          tok.expires_at.getD 0 - 60 ≤ now) := by
        rcases hcase with h0 | hfut
        · exact fun hc => hc.1 h0
        · exact fun hc => absurd hc.2 (by omega)
      rw [hunfold, if_neg hnot]
      cases tok.access_token <;> rfl
    · intro hnz hpast tok2 s hres hacc
      rw [hunfold, if_pos ⟨hnz, hpast⟩, hres]
      show Except.ok (tok2.access_token.getD (tok.access_token.getD "")) = _
      rw [hacc]
      rfl

theorem c7_valid_token_amended_witness :
    async_get_valid_token (some ⟨some "old", some 1000100⟩) 1000000
        (.ok ⟨some "new", none⟩) = .ok "old" ∧
    async_get_valid_token (some ⟨some "old", some 1000050⟩) 1000000
        (.ok ⟨some "new", none⟩) = .ok "new" := by
  constructor
  · exact ((c7_valid_token_amended (some ⟨some "old", some 1000100⟩) 1000000
      (.ok ⟨some "new", none⟩)).2 ⟨some "old", some 1000100⟩ rfl).1
      (Or.inr (by decide))
  · exact ((c7_valid_token_amended (some ⟨some "old", some 1000050⟩) 1000000
      (.ok ⟨some "new", none⟩)).2 ⟨some "old", some 1000050⟩ rfl).2
      (by decide) (by decide) ⟨some "new", none⟩ "new" rfl rfl

/-! ## Due-date round-trip lemmas -/

theorem digitVal_digitChar {k : Nat} (hk : k < 10) :
    digitVal (digitChar k) = some k := by
  interval_cases k <;> decide

theorem digitChar_ne_Z {k : Nat} (hk : k < 10) : ¬ digitChar k = 'Z' := by
  interval_cases k <;> decide

theorem parse2_pad2 {n : Nat} (hn : n ≤ 99) :
    parse2 (digitChar (n / 10 % 10)) (digitChar (n % 10)) = some n := by
  simp only [parse2, digitVal_digitChar (Nat.mod_lt _ (by norm_num)),
    digitVal_digitChar (Nat.mod_lt _ (by norm_num))]
  show some (n / 10 % 10 * 10 + n % 10) = some n
  congr 1
  omega

theorem parse4_pad4 {n : Nat} (hn : n ≤ 9999) :
    parse4 (digitChar (n / 1000 % 10)) (digitChar (n / 100 % 10))
      (digitChar (n / 10 % 10)) (digitChar (n % 10)) = some n := by
  simp only [parse4, digitVal_digitChar (Nat.mod_lt _ (by norm_num)),
    digitVal_digitChar (Nat.mod_lt _ (by norm_num)),
    digitVal_digitChar (Nat.mod_lt _ (by norm_num)),
    digitVal_digitChar (Nat.mod_lt _ (by norm_num))]
  show some (n / 1000 % 10 * 1000 + n / 100 % 10 * 100 + n / 10 % 10 * 10 + n % 10) =
    some n
  congr 1
  omega

theorem daysInMonth_le_31 (y m : Nat) : daysInMonth y m ≤ 31 := by
  rw [daysInMonth]
  split_ifs <;> omega

theorem replaceZ_isoformatChars (d : Date) :
    replaceZ d.isoformatChars = d.isoformatChars := by
  have h1 : ¬ digitChar (d.year / 1000 % 10) = 'Z' :=
    digitChar_ne_Z (Nat.mod_lt _ (by norm_num))
  have h2 : ¬ digitChar (d.year / 100 % 10) = 'Z' :=
    digitChar_ne_Z (Nat.mod_lt _ (by norm_num))
  have h3 : ¬ digitChar (d.year / 10 % 10) = 'Z' :=
    digitChar_ne_Z (Nat.mod_lt _ (by norm_num))
  have h4 : ¬ digitChar (d.year % 10) = 'Z' :=
    digitChar_ne_Z (Nat.mod_lt _ (by norm_num))
  have h5 : ¬ digitChar (d.month / 10 % 10) = 'Z' :=
    digitChar_ne_Z (Nat.mod_lt _ (by norm_num))
  have h6 : ¬ digitChar (d.month % 10) = 'Z' :=
    digitChar_ne_Z (Nat.mod_lt _ (by norm_num))
  have h7 : ¬ digitChar (d.day / 10 % 10) = 'Z' :=
    digitChar_ne_Z (Nat.mod_lt _ (by norm_num))
  have h8 : ¬ digitChar (d.day % 10) = 'Z' :=
    digitChar_ne_Z (Nat.mod_lt _ (by norm_num))
  have hdash : ¬ ('-' = 'Z') := by decide
  simp [Date.isoformatChars, pad4Chars, pad2Chars, replaceZ,
    h1, h2, h3, h4, h5, h6, h7, h8, hdash]

theorem fromisoformatChars_isoformat (d : Date) (h : d.Valid) :
    fromisoformatChars d.isoformatChars = some ⟨d, 0, 0, 0⟩ := by
  obtain ⟨y, m, dd⟩ := d
  obtain ⟨hy1, hy2, hm1, hm2, hd1, hd2⟩ := h
  have hdle : dd ≤ 99 :=
    le_trans hd2 (le_trans (daysInMonth_le_31 y m) (by norm_num))
  have hmle : m ≤ 99 := le_trans hm2 (by norm_num)
  have hlist : Date.isoformatChars ⟨y, m, dd⟩ =
      [digitChar (y / 1000 % 10), digitChar (y / 100 % 10),
       digitChar (y / 10 % 10), digitChar (y % 10), '-',
       digitChar (m / 10 % 10), digitChar (m % 10), '-',
       digitChar (dd / 10 % 10), digitChar (dd % 10)] := rfl
  rw [hlist]
  have hpd : parseDate10
      [digitChar (y / 1000 % 10), digitChar (y / 100 % 10),
       digitChar (y / 10 % 10), digitChar (y % 10), '-',
       digitChar (m / 10 % 10), digitChar (m % 10), '-',
       digitChar (dd / 10 % 10), digitChar (dd % 10)] = some ⟨y, m, dd⟩ := by
    simp only [parseDate10, if_pos (And.intro rfl rfl),
      parse4_pad4 hy2, parse2_pad2 hmle, parse2_pad2 hdle]
    show (if (Date.mk y m dd).Valid then some (Date.mk y m dd) else none) = _
    rw [if_pos ⟨hy1, hy2, hm1, hm2, hd1, hd2⟩]
  simp only [fromisoformatChars, hpd]

/-- C10: parsing the string produced by formatting any valid date yields
that date back; formatting a datetime produces the ISO date of its date
portion only; and parsing `None`, the empty string, or a string that is not
a parseable ISO 8601 date/datetime yields `None`. -/
theorem c10_due_date_round_trip :
    (∀ d : Date, d.Valid →
       parse_due_date (format_due_date (some (.onDate d))) = some d) ∧
    (∀ dt : DateTime,
       format_due_date (some (.onDateTime dt)) = some dt.date.isoformat) ∧
    parse_due_date none = none ∧
    parse_due_date (some "") = none ∧
    parse_due_date (some "not a date") = none ∧
    parse_due_date (some "2024-13-01") = none ∧
    parse_due_date (some "2024-02-30") = none ∧
    parse_due_date (some "hello") = none := by
  refine ⟨?_, fun dt => rfl, rfl, rfl, by decide, by decide, by decide, by decide⟩
  intro d hd
  rw [show format_due_date (some (.onDate d)) = some d.isoformat from rfl]
  rw [show parse_due_date (some d.isoformat) =
      (if d.isoformatChars.isEmpty then none
       else
         match fromisoformatChars (replaceZ d.isoformatChars) with
         | some parsed => some parsed.date
         | none => none) from rfl]
  have hne : d.isoformatChars.isEmpty = false := by
    obtain ⟨y, m, dd⟩ := d
    rfl
  rw [if_neg (by rw [hne]; simp), replaceZ_isoformatChars d,
    fromisoformatChars_isoformat d hd]

theorem c10_due_date_round_trip_witness :
    (Date.mk 2024 2 29).Valid ∧
    parse_due_date (format_due_date (some (.onDate ⟨2024, 2, 29⟩))) =
      some ⟨2024, 2, 29⟩ :=
  ⟨by decide, c10_due_date_round_trip.1 ⟨2024, 2, 29⟩ (by decide)⟩

/-- C1: state mutations on a team's list.  Marking an item completed sends
exactly one issue update moving it to the team's configured completed state;
marking it needs-action sends exactly one update moving it to the first
configured todo state; deleting sends one update per uid moving each issue to
the configured removed state; and each operation raises `ValueError` without
sending any request when its state is not configured. -/
theorem c1_mutations_state_mapping (team_states : List (String × TeamConfig))
    (team_id : String) (item : TodoItem) (update_fields : Option UpdateFields)
    (uids : List String) :
    (resolvedStatus item update_fields = some .completed →
      (∀ cs, ((dictGet team_states team_id).getD default).completed_state =
           some cs → cs ≠ "" →
         (async_update_todo_item team_states team_id item update_fields).2 =
           none ∧
         (async_update_todo_item team_states team_id item update_fields).1.map
             IssueUpdateCall.state_id = [some cs]) ∧
      (truthyStr ((dictGet team_states team_id).getD default).completed_state =
          false →
         async_update_todo_item team_states team_id item update_fields =
           ([], some "No completed state configured for team"))) ∧
    (resolvedStatus item update_fields = some .needsAction →
      (∀ s0 rest,
         ((dictGet team_states team_id).getD default).todo_states = s0 :: rest →
         (async_update_todo_item team_states team_id item update_fields).2 =
           none ∧
         (async_update_todo_item team_states team_id item update_fields).1.map
             IssueUpdateCall.state_id = [some s0]) ∧
      (((dictGet team_states team_id).getD default).todo_states = [] →
         async_update_todo_item team_states team_id item update_fields =
           ([], some "No todo states configured for team"))) ∧
    ((∀ rs, ((dictGet team_states team_id).getD default).removed_state =
         some rs → rs ≠ "" →
       async_delete_todo_items team_states team_id uids =
         (uids.map (fun u => ⟨u, some rs, none, none⟩), none)) ∧
     (truthyStr ((dictGet team_states team_id).getD default).removed_state =
         false →
       async_delete_todo_items team_states team_id uids =
         ([], some "No removed state configured for this team"))) := by
  refine ⟨?_, ?_, ?_, ?_⟩
  · intro hres
    constructor
    · intro cs hcs hcsne
      rcases update_fields with _ | ⟨st, hd, hdu⟩
      · simp [async_update_todo_item, hres, hcs, truthyStr, hcsne,
          async_update_issue]
      · cases hhd : (hd || hdu) <;>
          simp [async_update_todo_item, hres, hcs, truthyStr, hcsne,
            async_update_issue, hhd]
    · intro hfalse
      rcases update_fields with _ | ⟨st, hd, hdu⟩
      · simp [async_update_todo_item, hres, hfalse, async_update_issue]
      · cases hhd : (hd || hdu) <;>
          simp [async_update_todo_item, hres, hfalse, async_update_issue, hhd]
  · intro hres
    constructor
    · intro s0 rest hts
      rcases update_fields with _ | ⟨st, hd, hdu⟩
      · simp [async_update_todo_item, hres, hts, async_update_issue]
      · cases hhd : (hd || hdu) <;>
          simp [async_update_todo_item, hres, hts, async_update_issue, hhd]
    · intro hnil
      rcases update_fields with _ | ⟨st, hd, hdu⟩
      · simp [async_update_todo_item, hres, hnil, async_update_issue]
      · cases hhd : (hd || hdu) <;>
          simp [async_update_todo_item, hres, hnil, async_update_issue, hhd]
  · intro rs hrs hrsne
    simp [async_delete_todo_items, hrs, truthyStr, hrsne, deleteLoop_some]
  · intro hfalse
    simp [async_delete_todo_items, hfalse]

theorem c1_mutations_state_mapping_witness :
    ((async_update_todo_item [("t1", ⟨["s1"], some "c1", some "r1"⟩)] "t1"
        ⟨"u1", some "x", some .completed, none, none⟩
        (some ⟨some .completed, false, false⟩)).2 = none ∧
      (async_update_todo_item [("t1", ⟨["s1"], some "c1", some "r1"⟩)] "t1"
        ⟨"u1", some "x", some .completed, none, none⟩
        (some ⟨some .completed, false, false⟩)).1.map
          IssueUpdateCall.state_id = [some "c1"]) ∧
    async_delete_todo_items [("t1", ⟨["s1"], some "c1", some "r1"⟩)] "t1"
        ["u1", "u2"] =
      (["u1", "u2"].map (fun u => ⟨u, some "r1", none, none⟩), none) := by
  obtain ⟨hcompleted, -, hdelete, -⟩ :=
    c1_mutations_state_mapping [("t1", ⟨["s1"], some "c1", some "r1"⟩)] "t1"
      ⟨"u1", some "x", some .completed, none, none⟩
      (some ⟨some .completed, false, false⟩) ["u1", "u2"]
  exact ⟨(hcompleted rfl).1 "c1" rfl (by decide), hdelete "r1" rfl (by decide)⟩

/-- C3: when a GraphQL request receives an authentication-error response
(HTTP 401/403, or a GraphQL error marked unauthorized) and a token-refresh
callback is configured, the wrapper refreshes the token and retries the
request exactly once (two HTTP requests, final token the refreshed one); no
call of the wrapper ever issues more than two requests; and when the retried
request still returns 401/403 the call raises the authentication error. -/
theorem c3_auth_retry_exactly_once (outcomes : Nat → RequestOutcome)
    (new_token api_token : String) (r1 : Response)
    (h0 : outcomes 0 = .success r1)
    (hauth : computeIsAuthError r1 = true) :
    (api_wrapper outcomes (some (.ok new_token)) true api_token
        false).requestCount = 2 ∧
    (api_wrapper outcomes (some (.ok new_token)) true api_token
        false).finalToken = new_token ∧
    (∀ outcomes2 cb retry tok rip,
       (api_wrapper outcomes2 cb retry tok rip).requestCount ≤ 2) ∧
    (∀ r2, outcomes 1 = .success r2 → r2.status = 401 ∨ r2.status = 403 →
       (api_wrapper outcomes (some (.ok new_token)) true api_token
         false).result = .error .authentication) := by
  refine ⟨?_, ?_, ?_, ?_⟩
  · simp only [api_wrapper, h0]
    rw [if_pos (by simp [hauth])]
    cases h1 : outcomes 1 <;> simp
  · simp only [api_wrapper, h0]
    rw [if_pos (by simp [hauth])]
    cases h1 : outcomes 1 <;> simp
  · intro o2 cb retry tok rip
    unfold api_wrapper
    split
    · simp
    · split
      · split <;> try simp
        split <;> simp
      · simp
  · intro r2 h1 hst
    simp only [api_wrapper, h0]
    rw [if_pos (by simp [hauth])]
    simp only [h1]
    show (classifyResponse r2) = .error .authentication
    rw [classifyResponse, if_pos hst]

theorem c3_auth_retry_exactly_once_witness :
    (api_wrapper (fun _ => .success ⟨401, none⟩) (some (.ok "t2")) true "t1"
        false).requestCount = 2 ∧
    (api_wrapper (fun _ => .success ⟨401, none⟩) (some (.ok "t2")) true "t1"
        false).result = .error .authentication := by
  obtain ⟨hcount, -, -, hretry⟩ :=
    c3_auth_retry_exactly_once (fun _ => .success ⟨401, none⟩) "t2" "t1"
      ⟨401, none⟩ rfl (by decide)
  exact ⟨hcount, hretry ⟨401, none⟩ rfl (Or.inl rfl)⟩

end IntegrationLinear
